import Mathlib

/-!
Shallow embedding of the client-side session controller in
`src/web/src/app/page.tsx` (the `Home` component): the model lifecycle
manager (the `useEffect` keyed on `selectedModelId`, lines 69-112), the
streaming session controller (`handleSend`, lines 126-187; `handleReset`,
lines 189-194) and the gating predicate `canSend` (lines 123-124).

Modelling decisions, each tied to the source:
* React state variables become fields of `AppState`.  `conversationRef`
  (line 63) always mirrors `messages` (effect at lines 65-67), so it is not
  a separate field: in the single-threaded semantics every read of
  `conversationRef.current` sees the current `messages`.
* The per-effect-run `cancelled` closure flag (lines 71, 87, 92, 98, 105,
  110) is modelled by a counter `loadEpoch`: each run of the effect body is
  an attempt numbered by the value of `loadEpoch` at its start, and the
  cleanup that sets the previous run's `cancelled = true` is the increment
  of `loadEpoch` performed when `selectedModelId` changes.  Attempt `a` is
  cancelled exactly when `a` differs from the current `loadEpoch`.
* Asynchronous resumptions (a load progress callback, a load settling, one
  stream chunk's `setMessages` updater, the `getMessage` overwrite, the
  catch-block overwrite, the `finally` block) are events of an `Event`
  type; `step` gives each its state transformation, exactly as the
  corresponding code block writes state.  Scheduling is single-threaded
  cooperative: an interleaving is a list of events.
* `EngineRef.loadAttempt` is a ghost annotation recording which load
  attempt produced the published engine; the `instanceId` is the opaque
  engine object.  The code stores only the object.
* `InitProgressReport` formatting (`formatProgress`, lines 24-32) rounds a
  float fraction; the float arithmetic is display-only, so a report is
  modelled as its already-formatted text and the `||` fallback at line 89
  as a test against the empty string.
* JavaScript `String.prototype.trim` (drop leading and trailing
  whitespace) is modelled by `jsTrim`, which drops whitespace characters
  from both ends of the character sequence.
-/

inductive Role where
  | user
  | assistant
deriving DecidableEq, Repr

structure ChatMessage where
  role : Role
  content : String
deriving DecidableEq, Repr

/-- Lines 20-22 of `page.tsx` (a template literal; the first two lines end
in a space before the newline). -/
def DEFAULT_RULES : String :=
  "You are a loyal personal assistant that follows the user's custom rules precisely. \nProvide concise, actionable answers, always prioritizing the user's preferences. \nIf a request conflicts with the user's rules, remind them of the active instructions instead of refusing outright."

/-- Ghost-annotated engine handle: `instanceId` is the opaque
`MLCEngineInterface` object produced by `CreateMLCEngine`, `loadAttempt`
records which load attempt created it (not present in the code; used only
to state which attempt's engine is published). -/
structure EngineRef where
  loadAttempt : Nat
  instanceId : Nat
deriving DecidableEq, Repr

/-- The reactive state of the `Home` component (lines 45-63). -/
structure AppState where
  selectedModelId : String
  engine : Option EngineRef
  engineStatus : String
  loadProgress : Option String
  isLoadingModel : Bool
  systemRules : String
  messages : List ChatMessage
  userInput : String
  isStreaming : Bool
  temperature : Nat
  maxTokens : Nat
  loadEpoch : Nat
deriving DecidableEq, Repr

/-- The `setMessages` updater shared by the chunk loop (lines 151-158), the
final-message overwrite (lines 163-170) and the catch block (lines
173-183): copy the list and, when the last entry exists and has role
assistant, replace it by an assistant message with the given content. -/
def overwriteLastAssistant (content : String) (msgs : List ChatMessage) :
    List ChatMessage :=
  match msgs.getLast? with
  | some last =>
      if last.role = Role.assistant then
        msgs.dropLast ++ [⟨Role.assistant, content⟩]
      else msgs
  | none => msgs

/-- JavaScript `String.prototype.trim`: the string without its leading and
trailing whitespace. -/
def jsTrim (s : String) : String :=
  ⟨((s.data.dropWhile Char.isWhitespace).reverse.dropWhile
      Char.isWhitespace).reverse⟩

/-- Lines 118-121: the memoized system prompt. -/
def activeSystemPrompt (systemRules : String) : String :=
  let trimmed := jsTrim systemRules
  if trimmed.length > 0 then trimmed else DEFAULT_RULES

/-- Lines 123-124. -/
def canSend (s : AppState) : Bool :=
  s.engine.isSome && !s.isStreaming && decide ((jsTrim s.userInput).length > 0)
    && !s.isLoadingModel

/-- The request handed to `engine.chat.completions.create` (lines 137-145):
the system entry is kept as a separate field because the code builds it
inline with role "system", outside the `ChatMessage` role type.
`tempTenths` is the raw slider value whose tenths are sent (the
float division and `toFixed` rendering are value-preserving on the slider's
integer range and out of scope). -/
structure GenerationRequest where
  systemPrompt : String
  msgs : List ChatMessage
  tempTenths : Nat
  maxTokens : Nat
deriving DecidableEq, Repr

/-- The request `handleSend` would open from state `s`: history is the
current conversation plus the new trimmed user message (lines 128-131,
139-142). -/
def buildRequest (s : AppState) : GenerationRequest :=
  { systemPrompt := activeSystemPrompt s.systemRules
    msgs := s.messages ++ [⟨Role.user, jsTrim s.userInput⟩]
    tempTenths := s.temperature
    maxTokens := s.maxTokens }

/-- The synchronous first part of `handleSend` (lines 127-135), up to the
first await: guard on engine and trimmed prompt, append the user message
and the empty assistant placeholder, clear the input, mark streaming. -/
def handleSendStart (s : AppState) : AppState :=
  match s.engine with
  | none => s
  | some _ =>
      let prompt := jsTrim s.userInput
      if prompt = "" then s
      else
        { s with
            userInput := ""
            messages := s.messages ++ [⟨Role.user, prompt⟩]
              ++ [⟨Role.assistant, ""⟩]
            isStreaming := true }

/-- A user send gesture: the send button is `disabled` unless `canSend`
(lines 390-393) and the Enter key handler calls `handleSend` only `if
(canSend)` (lines 376-381), so a submission runs `handleSend` exactly when
`canSend` holds. -/
def trySendStep (s : AppState) : AppState :=
  if canSend s then handleSendStart s else s

/-- A change of the model select control (lines 224-227) together with the
effect it triggers (lines 69-112 up to the first await): React bails out
when the value is unchanged; the previous effect run's cleanup cancels it
(`loadEpoch` increment); the effect body returns early on an empty id,
otherwise it resets engine, conversation, status and progress before the
asynchronous `CreateMLCEngine` call. -/
def selectModelStep (id : String) (s : AppState) : AppState :=
  if id = s.selectedModelId then s
  else if id = "" then
    { s with selectedModelId := id, loadEpoch := s.loadEpoch + 1 }
  else
    { s with
        selectedModelId := id
        loadEpoch := s.loadEpoch + 1
        isLoadingModel := true
        engine := none
        messages := []
        engineStatus := "Loading " ++ id ++ "…"
        loadProgress := none }

/-- A progress callback of load attempt `attempt` (lines 86-90): dropped
when the attempt is cancelled, otherwise stores the report and sets status
to the formatted text, falling back to "Preparing model…" when empty. -/
def loadProgressStep (attempt : Nat) (report : String) (s : AppState) :
    AppState :=
  if attempt = s.loadEpoch then
    { s with
        loadProgress := some report
        engineStatus := if report = "" then "Preparing model…" else report }
  else s

/-- Load attempt `attempt` settling successfully (lines 92-96 and the
`finally` at lines 104-106): dropped when cancelled, otherwise publishes
the engine, sets the ready status and ends loading. -/
def loadSuccessStep (attempt instanceId : Nat) (s : AppState) : AppState :=
  if attempt = s.loadEpoch then
    { s with
        engine := some ⟨attempt, instanceId⟩
        engineStatus :=
          "Model ready. Define your custom rules and start chatting."
        isLoadingModel := false }
  else s

/-- Load attempt `attempt` settling with an error (lines 97-106): dropped
when cancelled, otherwise sets the failure status and ends loading. -/
def loadFailureStep (attempt : Nat) (message : String) (s : AppState) :
    AppState :=
  if attempt = s.loadEpoch then
    { s with
        engineStatus := "Failed to load model: " ++ message
        isLoadingModel := false }
  else s

/-- One chunk's `setMessages` call (lines 150-158), with `snapshot` the
aggregate captured by that updater. -/
def chunkWriteStep (snapshot : String) (s : AppState) : AppState :=
  { s with messages := overwriteLastAssistant snapshot s.messages }

/-- The `getMessage` overwrite (lines 161-171): applied only when the final
reply is a non-empty string. -/
def finalWriteStep (finalReply : String) (s : AppState) : AppState :=
  if finalReply.length > 0 then
    { s with messages := overwriteLastAssistant finalReply s.messages }
  else s

/-- The catch block of `handleSend` (lines 172-183). -/
def errorWriteStep (message : String) (s : AppState) : AppState :=
  { s with messages := overwriteLastAssistant ("⚠️ " ++ message) s.messages }

/-- The `finally` block of `handleSend` (lines 184-186). -/
def streamEndStep (s : AppState) : AppState :=
  { s with isStreaming := false }

/-- `handleReset` (lines 189-194). -/
def handleReset (s : AppState) : AppState :=
  { s with
      messages := []
      engineStatus :=
        "Conversation cleared. You can adjust rules and start again." }

/-- The suspension-point resumptions and user gestures of the component.
Typing in the two textareas (lines 304-309, 373-389) is included because it
can interleave with asynchronous work; the temperature and token sliders
are scalar configuration reads and do not interact with the claims. -/
inductive Event where
  | selectModel (id : String)
  | loadProgressEv (attempt : Nat) (report : String)
  | loadSuccessEv (attempt : Nat) (instanceId : Nat)
  | loadFailureEv (attempt : Nat) (message : String)
  | trySendEv
  | chunkWriteEv (snapshot : String)
  | finalWriteEv (finalReply : String)
  | errorWriteEv (message : String)
  | streamEndEv
  | setUserInputEv (text : String)
  | setSystemRulesEv (text : String)
  | resetEv
deriving DecidableEq, Repr

def step : Event → AppState → AppState
  | .selectModel id => selectModelStep id
  | .loadProgressEv a r => loadProgressStep a r
  | .loadSuccessEv a i => loadSuccessStep a i
  | .loadFailureEv a m => loadFailureStep a m
  | .trySendEv => trySendStep
  | .chunkWriteEv c => chunkWriteStep c
  | .finalWriteEv r => finalWriteStep r
  | .errorWriteEv m => errorWriteStep m
  | .streamEndEv => streamEndStep
  | .setUserInputEv t => fun s => { s with userInput := t }
  | .setSystemRulesEv t => fun s => { s with systemRules := t }
  | .resetEv => handleReset

def runEvents (evs : List Event) (s : AppState) : AppState :=
  evs.foldl (fun s e => step e s) s

/-- The chunk loop of `handleSend` (lines 147-159) run without
interference: `aggregate` accumulates each delta (`?? ""` for a missing
delta, hence `Option String`) and each iteration writes the running
aggregate. -/
def applyChunks (deltas : List (Option String)) (aggregate : String)
    (s : AppState) : AppState :=
  match deltas with
  | [] => s
  | d :: rest =>
      let next := aggregate ++ d.getD ""
      applyChunks rest next (chunkWriteStep next s)

/-- The running aggregate after the whole stream. -/
def aggregateOf (deltas : List (Option String)) : String :=
  deltas.foldl (fun a d => a ++ d.getD "") ""

/-- `handleSend` (lines 126-187) run to completion on the success path with
no interleaved events: guards, start, every chunk in order, the
final-message overwrite, the `finally`. -/
def runGeneration (deltas : List (Option String)) (finalReply : String)
    (s : AppState) : AppState :=
  match s.engine with
  | none => s
  | some _ =>
      if jsTrim s.userInput = "" then s
      else
        streamEndStep
          (finalWriteStep finalReply (applyChunks deltas "" (handleSendStart s)))

/-! ### Helper lemmas about the shared conversation writer -/

theorem length_pos_iff_ne_empty (s : String) : 0 < s.length ↔ s ≠ "" := by
  cases s with
  | mk data =>
    cases data with
    | nil => simp [String.length]
    | cons a l =>
      constructor
      · intro _ h
        exact (List.cons_ne_nil a l) (congrArg String.data h)
      · intro _
        simp [String.length]

theorem overwriteLastAssistant_nil (c : String) :
    overwriteLastAssistant c [] = [] := rfl

theorem overwriteLastAssistant_concat (c : String) (M : List ChatMessage)
    (m : ChatMessage) :
    overwriteLastAssistant c (M ++ [m]) =
      if m.role = Role.assistant then M ++ [⟨Role.assistant, c⟩]
      else M ++ [m] := by
  simp [overwriteLastAssistant, List.getLast?_concat, List.dropLast_concat]

theorem overwriteLastAssistant_dropLast (c : String) (l : List ChatMessage) :
    (overwriteLastAssistant c l).dropLast = l.dropLast := by
  rcases List.eq_nil_or_concat l with rfl | ⟨M, m, rfl⟩
  · rfl
  · rw [List.concat_eq_append, overwriteLastAssistant_concat]
    split <;> simp [List.dropLast_concat]

/-- A state used to instantiate universally quantified theorems at a
concrete input. -/
def sampleState : AppState :=
  { selectedModelId := "A"
    engine := some ⟨1, 42⟩
    engineStatus := "Model ready. Define your custom rules and start chatting."
    loadProgress := none
    isLoadingModel := false
    systemRules := DEFAULT_RULES
    messages := []
    userInput := "Hello"
    isStreaming := false
    temperature := 6
    maxTokens := 512
    loadEpoch := 1 }

/-- C9: every conversation write during a generation — each chunk
application, the canonical final overwrite (when it fires), and the error
overwrite — goes through `overwriteLastAssistant`, which replaces only the
last element and only when that element has role assistant: the untouched
final-write case leaves the state intact, all earlier messages (the
`dropLast`) are preserved by every such write, and a conversation that is
empty or ends in a user message is left unchanged. -/
theorem C9_stream_writes_frame (c r m : String) (s : AppState)
    (l init : List ChatMessage) (lastMsg : ChatMessage) :
    (chunkWriteStep c s).messages = overwriteLastAssistant c s.messages
    ∧ (r ≠ "" →
        (finalWriteStep r s).messages = overwriteLastAssistant r s.messages)
    ∧ (r = "" → finalWriteStep r s = s)
    ∧ (errorWriteStep m s).messages
        = overwriteLastAssistant ("⚠️ " ++ m) s.messages
    ∧ (overwriteLastAssistant c l).dropLast = l.dropLast
    ∧ (l = [] → overwriteLastAssistant c l = l)
    ∧ (l = init ++ [lastMsg] → lastMsg.role = Role.user →
        overwriteLastAssistant c l = l)
    ∧ (l = init ++ [lastMsg] → lastMsg.role = Role.assistant →
        overwriteLastAssistant c l = init ++ [⟨Role.assistant, c⟩]) := by
  refine ⟨rfl, ?_, ?_, rfl, overwriteLastAssistant_dropLast c l, ?_, ?_, ?_⟩
  · intro hr
    unfold finalWriteStep
    rw [if_pos ((length_pos_iff_ne_empty r).mpr hr)]
  · intro hr
    unfold finalWriteStep
    subst hr
    rfl
  · intro hl
    subst hl
    rfl
  · intro hl hrole
    subst hl
    rw [overwriteLastAssistant_concat, if_neg (by simp [hrole])]
  · intro hl hrole
    subst hl
    rw [overwriteLastAssistant_concat, if_pos hrole]

theorem C9_witness :
    overwriteLastAssistant "x" [⟨Role.user, "q"⟩, ⟨Role.assistant, "a"⟩]
      = [⟨Role.user, "q"⟩, ⟨Role.assistant, "x"⟩]
    ∧ overwriteLastAssistant "x" [⟨Role.user, "q"⟩] = [⟨Role.user, "q"⟩]
    ∧ finalWriteStep "" sampleState = sampleState :=
  ⟨(C9_stream_writes_frame "x" "y" "z" sampleState
      [⟨Role.user, "q"⟩, ⟨Role.assistant, "a"⟩] [⟨Role.user, "q"⟩]
      ⟨Role.assistant, "a"⟩).2.2.2.2.2.2.2 rfl rfl,
   (C9_stream_writes_frame "x" "y" "z" sampleState
      [⟨Role.user, "q"⟩] [] ⟨Role.user, "q"⟩).2.2.2.2.2.2.1 rfl rfl,
   (C9_stream_writes_frame "x" "" "z" sampleState [] []
      ⟨Role.user, "q"⟩).2.2.1 rfl⟩

/-- C10: the system prompt of every generation request is the trimmed
custom rules when the trim is non-empty and the built-in default rules
otherwise, and it is never the empty string. -/
theorem C10_system_prompt (rules : String) (s : AppState) :
    activeSystemPrompt rules
      = (if jsTrim rules = "" then DEFAULT_RULES else jsTrim rules)
    ∧ activeSystemPrompt rules ≠ ""
    ∧ (buildRequest s).systemPrompt = activeSystemPrompt s.systemRules := by
  have hchar : activeSystemPrompt rules
      = (if jsTrim rules = "" then DEFAULT_RULES else jsTrim rules) := by
    unfold activeSystemPrompt
    by_cases h : jsTrim rules = ""
    · rw [if_pos h, if_neg (by simp [h])]
    · rw [if_neg h, if_pos ((length_pos_iff_ne_empty (jsTrim rules)).mpr h)]
  refine ⟨hchar, ?_, rfl⟩
  rw [hchar]
  by_cases h : jsTrim rules = ""
  · rw [if_pos h]
    decide
  · rw [if_neg h]
    exact h

theorem C10_witness :
    activeSystemPrompt "   "
      = (if jsTrim "   " = "" then DEFAULT_RULES else jsTrim "   ")
    ∧ activeSystemPrompt "   " ≠ ""
    ∧ (buildRequest sampleState).systemPrompt
        = activeSystemPrompt sampleState.systemRules :=
  C10_system_prompt "   " sampleState

/-- A streaming-in-flight state, for concrete instantiations. -/
def streamingState : AppState :=
  { sampleState with
      isStreaming := true
      messages := [⟨Role.user, "Hello"⟩, ⟨Role.assistant, "Hi"⟩]
      userInput := "Next question" }

/-- A state whose input is whitespace only, for concrete instantiations. -/
def blankInputState : AppState :=
  { sampleState with userInput := "   " }

/-- C4: a submission gesture made while `isStreaming` is true leaves the
whole state — in particular the conversation — unchanged: `canSend` is
false, and both submission paths (send button, Enter key) run `handleSend`
only when `canSend` holds. -/
theorem C4_submit_while_streaming_noop (s : AppState)
    (h : s.isStreaming = true) : trySendStep s = s := by
  simp [trySendStep, canSend, h]

theorem C4_witness : trySendStep streamingState = streamingState :=
  C4_submit_while_streaming_noop streamingState rfl

/-- C8: submitting a prompt that is empty after trimming returns without
mutating state, both for the bare `handleSend` body (its early return) and
for the gated submission gesture. -/
theorem C8_blank_prompt_noop (s : AppState) (h : jsTrim s.userInput = "") :
    handleSendStart s = s ∧ trySendStep s = s := by
  have h1 : handleSendStart s = s := by
    cases he : s.engine with
    | none => simp [handleSendStart, he]
    | some e => simp [handleSendStart, he, h]
  refine ⟨h1, ?_⟩
  unfold trySendStep
  split
  · exact h1
  · rfl

theorem C8_witness :
    handleSendStart blankInputState = blankInputState
    ∧ trySendStep blankInputState = blankInputState :=
  C8_blank_prompt_noop blankInputState (by decide)

/-- C7: a model selection (to a different, non-empty id) synchronously —
before the asynchronous `CreateMLCEngine` call — sets the status to the
Loading message, nulls the active engine, clears the conversation and
marks loading. -/
theorem C7_select_resets_before_load (s : AppState) (id : String)
    (hchange : id ≠ s.selectedModelId) (hid : id ≠ "") :
    (selectModelStep id s).engineStatus = "Loading " ++ id ++ "…"
    ∧ (selectModelStep id s).engine = none
    ∧ (selectModelStep id s).messages = []
    ∧ (selectModelStep id s).isLoadingModel = true := by
  unfold selectModelStep
  rw [if_neg hchange, if_neg hid]
  exact ⟨rfl, rfl, rfl, rfl⟩

theorem C7_witness :
    (selectModelStep "B" sampleState).engineStatus = "Loading " ++ "B" ++ "…"
    ∧ (selectModelStep "B" sampleState).engine = none
    ∧ (selectModelStep "B" sampleState).messages = []
    ∧ (selectModelStep "B" sampleState).isLoadingModel = true :=
  C7_select_resets_before_load sampleState "B" (by decide) (by decide)

/-- C5 counterexample: `handleReset` does not set `isStreaming` to false —
resetting while a stream is in flight leaves `isStreaming` true — so the
claim that reset "sets isStreaming to false" fails on this concrete
state.  (The code also has no generation-epoch counter to increment.) -/
theorem C5_counterexample :
    (handleReset streamingState).isStreaming = true
    ∧ ¬ (handleReset streamingState).isStreaming = false := by
  decide

/-- C5 as amended: `handleReset` clears the conversation to empty and sets
the cleared status message; it leaves `isStreaming` (and every other
field) unchanged.  There is no generation-epoch counter: an in-flight
stream's future writes are nonetheless discarded while the conversation
stays empty, because each write applies only when the conversation's last
entry has role assistant. -/
theorem C5_reset_amended (s : AppState) (c : String) :
    (handleReset s).messages = []
    ∧ (handleReset s).isStreaming = s.isStreaming
    ∧ (handleReset s).engineStatus
        = "Conversation cleared. You can adjust rules and start again."
    ∧ chunkWriteStep c (handleReset s) = handleReset s
    ∧ finalWriteStep c (handleReset s) = handleReset s
    ∧ errorWriteStep ("⚠️ " ++ c) (handleReset s) = handleReset s := by
  refine ⟨rfl, rfl, rfl, ?_, ?_, ?_⟩
  · cases s
    rfl
  · unfold finalWriteStep
    split
    · cases s
      rfl
    · rfl
  · cases s
    rfl

/-! ### The conversation produced by an uninterrupted generation -/

theorem setMessages_self (s : AppState) (x : List ChatMessage)
    (h : x = s.messages) : { s with messages := x } = s := by
  subst h
  rfl

/-- The trailing assistant content after running the chunk loop, starting
from local aggregate `a` and a placeholder currently holding `c`: unchanged
when there is no chunk, otherwise the aggregate folded over all deltas. -/
def chunksContent (deltas : List (Option String)) (a c : String) : String :=
  match deltas with
  | [] => c
  | _ => deltas.foldl (fun acc d => acc ++ d.getD "") a

theorem chunksContent_cons (d : Option String) (rest : List (Option String))
    (a c : String) :
    chunksContent (d :: rest) a c
      = chunksContent rest (a ++ d.getD "") (a ++ d.getD "") := by
  cases rest <;> simp [chunksContent]

theorem applyChunks_spec (deltas : List (Option String)) :
    ∀ (a c : String) (s : AppState) (M : List ChatMessage),
      s.messages = M ++ [⟨Role.assistant, c⟩] →
      applyChunks deltas a s
        = { s with
              messages := M ++ [⟨Role.assistant, chunksContent deltas a c⟩] } := by
  induction deltas with
  | nil =>
      intro a c s M h
      simp only [applyChunks, chunksContent]
      exact (setMessages_self s _ h.symm).symm
  | cons d rest ih =>
      intro a c s M h
      have hmsgs : (chunkWriteStep (a ++ d.getD "") s).messages
          = M ++ [⟨Role.assistant, a ++ d.getD ""⟩] := by
        simp [chunkWriteStep, h, overwriteLastAssistant_concat]
      simp only [applyChunks]
      rw [ih (a ++ d.getD "") (a ++ d.getD "") _ M hmsgs, chunksContent_cons]
      simp [chunkWriteStep]

theorem chunksContent_empty_start (deltas : List (Option String)) :
    chunksContent deltas "" "" = aggregateOf deltas := by
  cases deltas <;> simp [chunksContent, aggregateOf]

/-- What an uninterrupted, error-free `handleSend` leaves in the
conversation: the old history, the trimmed user prompt, and an assistant
message holding the canonical final reply when it is non-empty and the
streamed aggregate otherwise. -/
theorem runGeneration_messages (s : AppState) (deltas : List (Option String))
    (finalReply : String) (e : EngineRef) (heng : s.engine = some e)
    (hprompt : jsTrim s.userInput ≠ "") :
    (runGeneration deltas finalReply s).messages
      = s.messages ++ [⟨Role.user, jsTrim s.userInput⟩,
          ⟨Role.assistant,
            if finalReply = "" then aggregateOf deltas else finalReply⟩] := by
  have hstart : handleSendStart s
      = { s with
            userInput := ""
            messages := s.messages ++ [⟨Role.user, jsTrim s.userInput⟩]
              ++ [⟨Role.assistant, ""⟩]
            isStreaming := true } := by
    simp [handleSendStart, heng, hprompt]
  have hchunks := applyChunks_spec deltas "" "" (handleSendStart s)
    (s.messages ++ [⟨Role.user, jsTrim s.userInput⟩]) (by rw [hstart])
  unfold runGeneration
  rw [heng]
  rw [if_neg hprompt]
  rw [hchunks, chunksContent_empty_start]
  by_cases hfin : finalReply = ""
  · subst hfin
    simp only [streamEndStep, finalWriteStep, String.length, if_neg]
    simp [List.append_assoc]
  · rw [if_neg hfin]
    have : finalWriteStep finalReply
        { handleSendStart s with
            messages := s.messages ++ [⟨Role.user, jsTrim s.userInput⟩]
              ++ [⟨Role.assistant, aggregateOf deltas⟩] }
        = { handleSendStart s with
            messages := s.messages ++ [⟨Role.user, jsTrim s.userInput⟩]
              ++ [⟨Role.assistant, finalReply⟩] } := by
      unfold finalWriteStep
      rw [if_pos ((length_pos_iff_ne_empty finalReply).mpr hfin)]
      rw [overwriteLastAssistant_concat]
      simp
    rw [this]
    simp [streamEndStep, List.append_assoc]

/-- C6 counterexample: with streamed chunks "Hi" and " there" and a
canonical final text that is the empty string, the generation completes
without error but the appended assistant entry holds the aggregate
"Hi there", not the final text "" — so the conversation is not the prior
one extended by [user prompt, assistant finalText] as the claim states. -/
theorem C6_counterexample :
    (runGeneration [some "Hi", some " there"] "" sampleState).messages
      = [⟨Role.user, "Hello"⟩, ⟨Role.assistant, "Hi there"⟩]
    ∧ ¬ (runGeneration [some "Hi", some " there"] "" sampleState).messages
      = sampleState.messages
        ++ [⟨Role.user, "Hello"⟩, ⟨Role.assistant, ""⟩] := by
  decide

/-- C6 (amended): a submit of a non-empty-after-trimming prompt that runs
to successful completion extends the conversation by exactly two entries —
the trimmed user prompt, then one assistant entry whose content is the
canonical final text when that text is non-empty and the streamed
aggregate otherwise. -/
theorem C6_roundtrip (s : AppState) (deltas : List (Option String))
    (finalReply : String) (e : EngineRef) (heng : s.engine = some e)
    (hprompt : jsTrim s.userInput ≠ "") :
    (runGeneration deltas finalReply s).messages
      = s.messages ++ [⟨Role.user, jsTrim s.userInput⟩,
          ⟨Role.assistant,
            if finalReply = "" then aggregateOf deltas else finalReply⟩] :=
  runGeneration_messages s deltas finalReply e heng hprompt

theorem C6_witness :
    (runGeneration [some "Hi"] "Hi there!" sampleState).messages
      = sampleState.messages ++ [⟨Role.user, jsTrim sampleState.userInput⟩,
          ⟨Role.assistant,
            if ("Hi there!" : String) = "" then aggregateOf [some "Hi"]
            else "Hi there!"⟩] :=
  C6_roundtrip sampleState [some "Hi"] "Hi there!" ⟨1, 42⟩ rfl (by decide)

/-- C3 counterexample: a generation that completes without error but whose
`getMessage` result is the empty string leaves the trailing assistant
message holding the streamed aggregate "Hi", not the canonical final text
"" — the overwrite at lines 162-171 fires only for a non-empty reply. -/
theorem C3_counterexample :
    ((runGeneration [some "Hi"] "" sampleState).messages).getLast?
      = some ⟨Role.assistant, "Hi"⟩
    ∧ ¬ ((runGeneration [some "Hi"] "" sampleState).messages).getLast?
      = some ⟨Role.assistant, ""⟩ := by
  decide

/-- C3 (amended): for every generation that completes without error and
whose canonical final text is non-empty, after the final-message fetch the
trailing assistant message's content equals that canonical text,
overriding whatever partial aggregate was accumulated while streaming. -/
theorem C3_final_overwrite (s : AppState) (deltas : List (Option String))
    (finalReply : String) (e : EngineRef) (heng : s.engine = some e)
    (hprompt : jsTrim s.userInput ≠ "") (hfin : finalReply ≠ "") :
    ((runGeneration deltas finalReply s).messages).getLast?
      = some ⟨Role.assistant, finalReply⟩ := by
  rw [runGeneration_messages s deltas finalReply e heng hprompt, if_neg hfin]
  rw [show s.messages ++ [⟨Role.user, jsTrim s.userInput⟩,
      (⟨Role.assistant, finalReply⟩ : ChatMessage)]
      = (s.messages ++ [⟨Role.user, jsTrim s.userInput⟩])
        ++ [⟨Role.assistant, finalReply⟩] by simp]
  exact List.getLast?_concat _

theorem C3_witness :
    ((runGeneration [some "Hi", some "!"] "Hello!" sampleState).messages).getLast?
      = some ⟨Role.assistant, "Hello!"⟩ :=
  C3_final_overwrite sampleState [some "Hi", some "!"] "Hello!" ⟨1, 42⟩ rfl
    (by decide) (by decide)

/-! ### Interleavings: stale streams and superseded loads -/

/-- Events that are a load attempt settling successfully. -/
def isLoadSuccess : Event → Bool
  | .loadSuccessEv _ _ => true
  | _ => false

/-- Selection events carry a non-empty id (the select control only offers
catalog model ids); every other event qualifies. -/
def selectsNonemptyId : Event → Bool
  | .selectModel id => decide (id ≠ "")
  | _ => true

theorem handleSendStart_frame (s : AppState) :
    (handleSendStart s).engine = s.engine
    ∧ (handleSendStart s).loadEpoch = s.loadEpoch
    ∧ (handleSendStart s).isLoadingModel = s.isLoadingModel := by
  unfold handleSendStart
  split
  · exact ⟨rfl, rfl, rfl⟩
  · by_cases hp : jsTrim s.userInput = ""
    · simp [hp]
    · simp [hp]

/-- While the conversation is empty and no engine is published, no event
other than a load success can repopulate the conversation or publish an
engine: stream writes are no-ops on an empty conversation, `canSend` is
false without an engine, and load progress or failure leave both alone. -/
theorem step_preserves_cleared (e : Event) (s : AppState)
    (hs : s.messages = [] ∧ s.engine = none)
    (he : isLoadSuccess e = false) :
    (step e s).messages = [] ∧ (step e s).engine = none := by
  obtain ⟨hm, heng⟩ := hs
  cases e with
  | selectModel id =>
      simp only [step, selectModelStep]
      split
      · exact ⟨hm, heng⟩
      · split
        · exact ⟨hm, heng⟩
        · exact ⟨rfl, rfl⟩
  | loadProgressEv a r =>
      simp only [step, loadProgressStep]
      split
      · exact ⟨hm, heng⟩
      · exact ⟨hm, heng⟩
  | loadSuccessEv a i => simp [isLoadSuccess] at he
  | loadFailureEv a m =>
      simp only [step, loadFailureStep]
      split
      · exact ⟨hm, heng⟩
      · exact ⟨hm, heng⟩
  | trySendEv =>
      have hc : canSend s = false := by simp [canSend, heng]
      simp [step, trySendStep, hc, hm, heng]
  | chunkWriteEv c =>
      refine ⟨?_, heng⟩
      simp [step, chunkWriteStep, hm, overwriteLastAssistant]
  | finalWriteEv r =>
      simp only [step, finalWriteStep]
      split
      · exact ⟨by simp [hm, overwriteLastAssistant], heng⟩
      · exact ⟨hm, heng⟩
  | errorWriteEv m =>
      refine ⟨?_, heng⟩
      simp [step, errorWriteStep, hm, overwriteLastAssistant]
  | streamEndEv => exact ⟨hm, heng⟩
  | setUserInputEv t => exact ⟨hm, heng⟩
  | setSystemRulesEv t => exact ⟨hm, heng⟩
  | resetEv => exact ⟨rfl, heng⟩

theorem run_preserves_cleared (evs : List Event) :
    ∀ s : AppState, s.messages = [] ∧ s.engine = none →
      (∀ e ∈ evs, isLoadSuccess e = false) →
      (runEvents evs s).messages = [] ∧ (runEvents evs s).engine = none := by
  induction evs with
  | nil =>
      intro s hs _
      exact hs
  | cons e rest ih =>
      intro s hs hall
      have h1 := step_preserves_cleared e s hs (hall e (by simp))
      have h2 := ih (step e s) h1 (fun x hx => hall x (by simp [hx]))
      simpa [runEvents] using h2

/-- C1: select a new model while a generation stream is in flight; for
every interleaving of the stale stream's resumptions (chunk writes, the
final-message overwrite, the error overwrite, the finally block) with any
other events short of the new load's success, the conversation cleared by
the selection stays empty, and it is still empty immediately after the new
model's load settles successfully. -/
theorem C1_stale_stream_discarded (s : AppState) (id : String)
    (evs : List Event) (attempt instanceId : Nat)
    (hchange : id ≠ s.selectedModelId) (hid : id ≠ "")
    (hevs : ∀ e ∈ evs, isLoadSuccess e = false) :
    (loadSuccessStep attempt instanceId
        (runEvents evs (selectModelStep id s))).messages = []
    ∧ (runEvents evs (selectModelStep id s)).messages = [] := by
  have h0 : (selectModelStep id s).messages = []
      ∧ (selectModelStep id s).engine = none := by
    unfold selectModelStep
    rw [if_neg hchange, if_neg hid]
    exact ⟨rfl, rfl⟩
  have h1 := run_preserves_cleared evs (selectModelStep id s) h0 hevs
  refine ⟨?_, h1.1⟩
  unfold loadSuccessStep
  split
  · exact h1.1
  · exact h1.1

theorem C1_witness :
    (loadSuccessStep 2 7 (runEvents
        [.chunkWriteEv "Hi there", .finalWriteEv "Hi there!", .streamEndEv]
        (selectModelStep "B" streamingState))).messages = []
    ∧ (runEvents
        [.chunkWriteEv "Hi there", .finalWriteEv "Hi there!", .streamEndEv]
        (selectModelStep "B" streamingState)).messages = [] :=
  C1_stale_stream_discarded streamingState "B"
    [.chunkWriteEv "Hi there", .finalWriteEv "Hi there!", .streamEndEv] 2 7
    (by decide) (by decide) (by decide)

/-- The published engine, when present, was produced by the load attempt
whose number is the current `loadEpoch` — i.e. by the most recent
selection's load. -/
def publishedFromLatest (s : AppState) : Prop :=
  ∀ e : EngineRef, s.engine = some e → e.loadAttempt = s.loadEpoch

theorem step_preserves_publishedFromLatest (ev : Event) (s : AppState)
    (hs : publishedFromLatest s) (he : selectsNonemptyId ev = true) :
    publishedFromLatest (step ev s) := by
  cases ev with
  | selectModel id =>
      have hid : id ≠ "" := by
        simpa [selectsNonemptyId] using he
      by_cases hsame : id = s.selectedModelId
      · simpa [step, selectModelStep, hsame] using hs
      · intro er her
        simp [step, selectModelStep, hsame, hid] at her
  | loadProgressEv a r =>
      by_cases hcur : a = s.loadEpoch
      · intro er her
        simp only [step, loadProgressStep, if_pos hcur] at her ⊢
        exact hs er her
      · intro er her
        simp only [step, loadProgressStep, if_neg hcur] at her ⊢
        exact hs er her
  | loadSuccessEv a i =>
      by_cases hcur : a = s.loadEpoch
      · intro er her
        simp only [step, loadSuccessStep, if_pos hcur] at her ⊢
        have : (⟨a, i⟩ : EngineRef) = er := Option.some.inj her
        rw [← this, hcur]
      · intro er her
        simp only [step, loadSuccessStep, if_neg hcur] at her ⊢
        exact hs er her
  | loadFailureEv a m =>
      by_cases hcur : a = s.loadEpoch
      · intro er her
        simp only [step, loadFailureStep, if_pos hcur] at her ⊢
        exact hs er her
      · intro er her
        simp only [step, loadFailureStep, if_neg hcur] at her ⊢
        exact hs er her
  | trySendEv =>
      by_cases hc : canSend s
      · have hstep : step .trySendEv s = handleSendStart s := by
          simp [step, trySendStep, hc]
        intro er her
        rw [hstep] at her ⊢
        rw [(handleSendStart_frame s).1] at her
        rw [(handleSendStart_frame s).2.1]
        exact hs er her
      · have hstep : step .trySendEv s = s := by
          simp [step, trySendStep, hc]
        rw [hstep]
        exact hs
  | chunkWriteEv c =>
      intro er her
      exact hs er her
  | finalWriteEv r =>
      by_cases hr : r.length > 0
      · intro er her
        simp only [step, finalWriteStep, if_pos hr] at her ⊢
        exact hs er her
      · intro er her
        simp only [step, finalWriteStep, if_neg hr] at her ⊢
        exact hs er her
  | errorWriteEv m =>
      intro er her
      exact hs er her
  | streamEndEv =>
      intro er her
      exact hs er her
  | setUserInputEv t =>
      intro er her
      exact hs er her
  | setSystemRulesEv t =>
      intro er her
      exact hs er her
  | resetEv =>
      intro er her
      exact hs er her

theorem run_preserves_publishedFromLatest (evs : List Event) :
    ∀ s : AppState, publishedFromLatest s →
      (∀ e ∈ evs, selectsNonemptyId e = true) →
      publishedFromLatest (runEvents evs s) := by
  induction evs with
  | nil =>
      intro s hs _
      exact hs
  | cons e rest ih =>
      intro s hs hall
      have h1 := step_preserves_publishedFromLatest e s hs (hall e (by simp))
      have h2 := ih (step e s) h1 (fun x hx => hall x (by simp [hx]))
      simpa [runEvents] using h2

/-- C2: a load attempt superseded by a later selection applies nothing
when it settles — its progress reports, its success (engine handle and
ready status) and its failure status are all discarded, leaving the state
untouched — and along every event sequence whose selections carry catalog
ids, the published engine is always the one produced by the most recent
selection's load attempt. -/
theorem C2_superseded_load_discarded (s : AppState) (evs : List Event)
    (attempt instanceId : Nat) (report message : String)
    (hstale : attempt ≠ s.loadEpoch)
    (hsel : ∀ e ∈ evs, selectsNonemptyId e = true)
    (hpub : publishedFromLatest s) :
    loadProgressStep attempt report s = s
    ∧ loadSuccessStep attempt instanceId s = s
    ∧ loadFailureStep attempt message s = s
    ∧ publishedFromLatest (runEvents evs s) := by
  refine ⟨?_, ?_, ?_, run_preserves_publishedFromLatest evs s hpub hsel⟩
  · unfold loadProgressStep
    rw [if_neg hstale]
  · unfold loadSuccessStep
    rw [if_neg hstale]
  · unfold loadFailureStep
    rw [if_neg hstale]

theorem C2_witness :
    loadProgressStep 0 "10%" sampleState = sampleState
    ∧ loadSuccessStep 0 7 sampleState = sampleState
    ∧ loadFailureStep 0 "boom" sampleState = sampleState
    ∧ publishedFromLatest (runEvents
        [.selectModel "B", .loadProgressEv 2 "50%", .loadSuccessEv 2 9]
        sampleState) :=
  C2_superseded_load_discarded sampleState
    [.selectModel "B", .loadProgressEv 2 "50%", .loadSuccessEv 2 9]
    0 7 "10%" "boom" (by decide) (by decide)
    (fun er her => by
      have h2 : (some (⟨1, 42⟩ : EngineRef)) = some er := her
      rw [← Option.some.inj h2]
      rfl)
